import Mathlib

/-!
Shallow embedding of the anomaly detection-and-scoring engine from
`src/dashboard/app.js` (functions `detectAnomalies`, `median`,
`calculateAnomalyScore`, `calculatePriceChange`, and the per-market part of
`analyzeAllMarkets`).

Modelling conventions:
* JS numbers are modelled as `ℚ` (sizes, prices, volumes, ratios) and
  timestamps as `ℤ` (integer epoch seconds).  `Math.round` is
  `⌊x + 1/2⌋` (round half toward +∞), matching JS semantics exactly.
* A missing numeric field read through `x || 0` in JS behaves exactly like
  the value `0`; we therefore model such fields as plain `ℚ` where `0`
  covers both "zero" and "absent".  `price || fallback` becomes
  `if price = 0 then fallback else price`.
* `new Set(xs).size` is `xs.dedup.length` (number of distinct elements).
* `Array.prototype.sort` with comparator `(a,b) => a.timestamp - b.timestamp`
  is a stable ascending sort, modelled with `List.mergeSort`.
* The display-only `datetime` string (locale-dependent `Date` formatting)
  is not modelled; every other event field is.
-/

/-- A trade record as consumed by `detectAnomalies`:
`timestamp`, `proxyWallet`, `side`, `size`, `price`. -/
structure Trade where
  timestamp : Int
  proxyWallet : String
  side : String
  size : ℚ
  price : ℚ
deriving DecidableEq, Inhabited, Repr

/-- The market descriptor fields that the engine reads:
`question`, `type`, `conditionId`, `slug`, `liquidity`, `volume24h`. -/
structure Market where
  question : String
  type : String
  conditionId : String
  slug : String
  liquidity : ℚ
  volume24h : ℚ
deriving DecidableEq, Inhabited, Repr

/-- The record returned by `calculatePriceChange`. -/
structure PriceChange where
  change : ℚ
  direction : String
  futurePrice : ℚ
  eventPrice : ℚ
  tradeCount : Nat
deriving DecidableEq, Inhabited, Repr

/-- An anomaly event as pushed by `detectAnomalies` (the `datetime` display
string is omitted, see the module docstring). -/
structure Event where
  timestamp : Int
  market : String
  marketType : String
  conditionId : String
  slug : String
  anomalies : List String
  walletCount : Nat
  totalVolume : ℚ
  netVolume : ℚ
  volumeRatio : ℚ
  tradeSize : ℚ
  priceRangePct : ℚ
  isBuy : Bool
  tradeCount : Nat
  score : Int
  priceChange : Option PriceChange
deriving DecidableEq, Inhabited, Repr

/-- The parameter object passed to `calculateAnomalyScore`
(field order follows the call site in `detectAnomalies`). -/
structure ScoreParams where
  anomalies : List String
  volumeRatio : ℚ
  tradeSizeRatio : ℚ
  priceRangePct : ℚ
  tradeCount : Nat
  imbalanceRatio : ℚ
  marketLiquidity : ℚ
  marketVolume : ℚ
deriving DecidableEq, Inhabited, Repr

/-- `const windowSec = 300` — the 5-minute trailing window. -/
def windowSec : Int := 300

/-- `const futureWindow = 300` in `calculatePriceChange`. -/
def futureWindow : Int := 300

/-- JS `Math.round`: round half toward positive infinity. -/
def jsRound (q : ℚ) : Int := ⌊q + 1/2⌋

/-- `median(arr)` from `app.js`: 0 on empty input, otherwise sort ascending
and take the middle element (odd length) or the mean of the two central
elements (even length). -/
def median (arr : List ℚ) : ℚ :=
  if arr.length = 0 then 0
  else
    let sorted := arr.mergeSort
    let mid := arr.length / 2
    if arr.length % 2 = 1 then sorted.getD mid 0
    else (sorted.getD (mid - 1) 0 + sorted.getD mid 0) / 2

/-- `trades.sort((a, b) => (a.timestamp || 0) - (b.timestamp || 0))`:
stable ascending sort by timestamp. -/
def sortTrades (trades : List Trade) : List Trade :=
  trades.mergeSort (fun a b => a.timestamp ≤ b.timestamp)

/-- The trailing window at index `i`:
`trades.slice(0, i + 1).filter(t => currentTime - windowSec <= t.timestamp
&& t.timestamp <= currentTime)`. -/
def tradeWindow (sorted : List Trade) (i : Nat) (currentTime : Int) : List Trade :=
  (sorted.take (i + 1)).filter
    (fun x => decide (currentTime - windowSec ≤ x.timestamp) && decide (x.timestamp ≤ currentTime))

/-- Notional of a trade: `(t.size || 0) * (t.price || 0)`. -/
def notional (t : Trade) : ℚ := t.size * t.price

/-- `window.filter(x => x.side === 'BUY').reduce((s, x) => s + size*price, 0)`. -/
def buyVolOf (window : List Trade) : ℚ :=
  ((window.filter (fun x => x.side == "BUY")).map notional).sum

/-- `window.filter(x => x.side === 'SELL').reduce((s, x) => s + size*price, 0)`. -/
def sellVolOf (window : List Trade) : ℚ :=
  ((window.filter (fun x => x.side == "SELL")).map notional).sum

/-- `buyVol + sellVol`. -/
def totalVolOf (window : List Trade) : ℚ := buyVolOf window + sellVolOf window

/-- `buyVol - sellVol`. -/
def netVolOf (window : List Trade) : ℚ := buyVolOf window - sellVolOf window

/-- `Math.max(...prices)` over a non-empty list (the engine only evaluates it
on windows of length ≥ 3). -/
def listMax (l : List ℚ) : ℚ := l.foldl max (l.headD 0)

/-- `Math.min(...prices)` over a non-empty list. -/
def listMin (l : List ℚ) : ℚ := l.foldl min (l.headD 0)

/-- One entry of the `allStats` baseline array: distinct-wallet count and
total notional volume of a qualifying window. -/
structure Stat where
  wallets : Nat
  volume : ℚ
deriving DecidableEq, Inhabited, Repr

/-- The baseline pass of `detectAnomalies` (first `for` loop): for every
index whose trailing window holds at least 3 trades, record the distinct
wallet count and the window's total notional. -/
def qualifyingStats (sorted : List Trade) : List Stat :=
  (List.range sorted.length).filterMap (fun i =>
    match sorted.get? i with
    | none => none
    | some t =>
      let window := tradeWindow sorted i t.timestamp
      if 3 ≤ window.length then
        some { wallets := (window.map (fun x => x.proxyWallet)).dedup.length
               volume := (window.map notional).sum }
      else none)

/-- The anomaly classification of one trade index (the five sequential `if`
blocks of `detectAnomalies`, in source order). -/
def anomaliesFor (medianVolume medianTradeSize totalVol netVol currentSize avgPrice
    priceRange : ℚ) (tradeFreq : Nat) : List String :=
  (if 0 < medianVolume ∧ medianVolume * 5 < totalVol then ["volume_spike"] else []) ++
  (if 0 < medianTradeSize ∧ medianTradeSize * 20 < currentSize then ["whale_trade"] else []) ++
  (if 100 < totalVol ∧ 85/100 < |netVol| / totalVol then ["imbalance"] else []) ++
  (if 0 < avgPrice ∧ 1/10 < priceRange / avgPrice then ["price_move"] else []) ++
  (if 10 < tradeFreq then ["high_frequency"] else [])

/-- The `typeWeights` dictionary with the `|| 5` default for unknown kinds. -/
def typeWeight (t : String) : ℚ :=
  if t = "whale_trade" then 15
  else if t = "volume_spike" then 12
  else if t = "price_move" then 10
  else if t = "imbalance" then 8
  else if t = "high_frequency" then 5
  else 5

/-- `calculateAnomalyScore(params)` from `app.js`: sequential accumulation of
the kind weights and the six bonus tiers, then `Math.min(100, Math.round(score))`. -/
def calculateAnomalyScore (params : ScoreParams) : Int :=
  let score : ℚ := (params.anomalies.map typeWeight).sum
  let score := score +
    (if 3 ≤ params.anomalies.length then 10 else if 2 ≤ params.anomalies.length then 5 else 0)
  let score := score +
    (if 20 < params.volumeRatio then 20 else if 10 < params.volumeRatio then 15
     else if 5 < params.volumeRatio then 10 else if 3 < params.volumeRatio then 5 else 0)
  let score := score +
    (if 50 < params.tradeSizeRatio then 15 else if 30 < params.tradeSizeRatio then 12
     else if 20 < params.tradeSizeRatio then 8 else if 10 < params.tradeSizeRatio then 5 else 0)
  let score := score +
    (if 20 < params.priceRangePct then 10 else if 10 < params.priceRangePct then 7
     else if 5 < params.priceRangePct then 4 else 0)
  let score := score +
    (if 95/100 < params.imbalanceRatio then 10 else if 9/10 < params.imbalanceRatio then 7
     else if 85/100 < params.imbalanceRatio then 4 else 0)
  let score := score +
    (if 10000 < params.marketLiquidity then 5 else if 5000 < params.marketLiquidity then 3
     else if 1000 < params.marketLiquidity then 1 else 0)
  min 100 (jsRound score)

/-- Component reading of §4.4 of the spec: per-kind base weights summed over
every matched kind. -/
def kindBaseSum (kinds : List String) : ℚ := (kinds.map typeWeight).sum

/-- Spec §4.4 multi-kind bonus. -/
def multiKindBonus (kinds : List String) : ℚ :=
  if 3 ≤ kinds.length then 10 else if 2 ≤ kinds.length then 5 else 0

/-- Spec §4.4 volume-ratio bonus (highest matching tier only). -/
def volumeRatioBonus (r : ℚ) : ℚ :=
  if 20 < r then 20 else if 10 < r then 15 else if 5 < r then 10 else if 3 < r then 5 else 0

/-- Spec §4.4 trade-size-ratio bonus. -/
def tradeSizeRatioBonus (r : ℚ) : ℚ :=
  if 50 < r then 15 else if 30 < r then 12 else if 20 < r then 8 else if 10 < r then 5 else 0

/-- Spec §4.4 price-range bonus. -/
def priceRangeBonus (pct : ℚ) : ℚ :=
  if 20 < pct then 10 else if 10 < pct then 7 else if 5 < pct then 4 else 0

/-- Spec §4.4 imbalance bonus. -/
def imbalanceBonus (r : ℚ) : ℚ :=
  if 95/100 < r then 10 else if 9/10 < r then 7 else if 85/100 < r then 4 else 0

/-- Spec §4.4 liquidity bonus. -/
def liquidityBonus (liq : ℚ) : ℚ :=
  if 10000 < liq then 5 else if 5000 < liq then 3 else if 1000 < liq then 1 else 0

/-- `trades.slice(eventIndex + 1).filter(t => t.timestamp <= eventTime + futureWindow)`. -/
def futureTradesOf (trades : List Trade) (eventIndex : Nat) (eventTime : Int) : List Trade :=
  (trades.drop (eventIndex + 1)).filter (fun t => decide (t.timestamp ≤ eventTime + futureWindow))

/-- `calculatePriceChange(trades, eventIndex, eventTime)` from `app.js`.
The caller only ever passes an in-range `eventIndex`; an out-of-range index
reads the default trade (price 0) and yields `none`. -/
def calculatePriceChange (trades : List Trade) (eventIndex : Nat) (eventTime : Int) :
    Option PriceChange :=
  let eventPrice := (trades.getD eventIndex default).price
  if eventPrice = 0 then none
  else
    let futureTrades := futureTradesOf trades eventIndex eventTime
    if futureTrades.length = 0 then none
    else
      let rawLast := (futureTrades.getLastD default).price
      let lastPrice := if rawLast = 0 then eventPrice else rawLast
      let change := (lastPrice - eventPrice) / eventPrice * 100
      some { change := change
             direction := if 0 < change then "up" else if change < 0 then "down" else "flat"
             futurePrice := lastPrice
             eventPrice := eventPrice
             tradeCount := futureTrades.length }

/-- Modelled from the spec wording of §4.5 (and claim C2), for comparison with
the source function: "take the price of the chronologically last such trade,
L" — with no zero-price fallback on L. -/
def specPriceChange (trades : List Trade) (eventIndex : Nat) (eventTime : Int) :
    Option PriceChange :=
  let eventPrice := (trades.getD eventIndex default).price
  if eventPrice = 0 then none
  else
    let futureTrades := futureTradesOf trades eventIndex eventTime
    if futureTrades.length = 0 then none
    else
      let lastPrice := (futureTrades.getLastD default).price
      let change := (lastPrice - eventPrice) / eventPrice * 100
      some { change := change
             direction := if 0 < change then "up" else if change < 0 then "down" else "flat"
             futurePrice := lastPrice
             eventPrice := eventPrice
             tradeCount := futureTrades.length }

/-- The body of the classification loop of `detectAnomalies` at one index:
`none` when the window holds fewer than 3 trades or no anomaly kind fires,
otherwise the pushed event. -/
def eventAtIndex (sorted : List Trade) (medianVolume medianTradeSize : ℚ)
    (market : Market) (i : Nat) : Option Event :=
  match sorted.get? i with
  | none => none
  | some t =>
    let currentTime := t.timestamp
    let window := tradeWindow sorted i currentTime
    if window.length < 3 then none
    else
      let walletCount := (window.map (fun x => x.proxyWallet)).dedup.length
      let totalVol := totalVolOf window
      let netVol := netVolOf window
      let prices := window.map (fun x => x.price)
      let priceRange := listMax prices - listMin prices
      let avgPrice := prices.sum / (prices.length : ℚ)
      let currentSize := notional t
      let tradeFreq := window.length
      let anomalies := anomaliesFor medianVolume medianTradeSize totalVol netVol
        currentSize avgPrice priceRange tradeFreq
      if 0 < anomalies.length then
        some { timestamp := currentTime
               market := market.question
               marketType := market.type
               conditionId := market.conditionId
               slug := market.slug
               anomalies := anomalies
               walletCount := walletCount
               totalVolume := totalVol
               netVolume := netVol
               volumeRatio := if 0 < medianVolume then totalVol / medianVolume else 0
               tradeSize := currentSize
               priceRangePct := if 0 < avgPrice then priceRange / avgPrice * 100 else 0
               isBuy := decide (0 < netVol)
               tradeCount := window.length
               score := calculateAnomalyScore
                 { anomalies := anomalies
                   volumeRatio := if 0 < medianVolume then totalVol / medianVolume else 0
                   tradeSizeRatio := if 0 < medianTradeSize then currentSize / medianTradeSize else 0
                   priceRangePct := if 0 < avgPrice then priceRange / avgPrice * 100 else 0
                   tradeCount := window.length
                   imbalanceRatio := if 0 < totalVol then |netVol| / totalVol else 0
                   marketLiquidity := market.liquidity
                   marketVolume := market.volume24h }
               priceChange := calculatePriceChange sorted i currentTime }
      else none

/-- The classification pass of `detectAnomalies` (second `for` loop): the
event list before deduplication, in ascending index order. -/
def classificationEvents (sorted : List Trade) (market : Market) : List Event :=
  let allStats := qualifyingStats sorted
  let medianVolume := median (allStats.map (fun s => s.volume))
  let medianTradeSize := median (sorted.map notional)
  (List.range sorted.length).filterMap (eventAtIndex sorted medianVolume medianTradeSize market)

/-- The deduplication loop of `detectAnomalies`, parameterised by the running
`lastTs` (initialised to 0 in the source): keep `e` iff
`e.timestamp - lastTs >= 5`. -/
def dedupeAux (lastTs : Int) : List Event → List Event
  | [] => []
  | e :: rest =>
    if 5 ≤ e.timestamp - lastTs then e :: dedupeAux e.timestamp rest
    else dedupeAux lastTs rest

/-- The deduplicator of `detectAnomalies` (`let lastTs = 0; for (const e of
events) ...`). -/
def dedupeEvents (events : List Event) : List Event := dedupeAux 0 events

/-- Modelled from the spec wording of §4.6 (and claim C1), for comparison
with the source deduplicator: the gate on the timestamp of the last kept
event, once a first event has been kept. -/
def specGate (lastKept : Int) : List Event → List Event
  | [] => []
  | e :: rest =>
    if lastKept + 5 ≤ e.timestamp then e :: specGate e.timestamp rest
    else specGate lastKept rest

/-- Modelled from the spec wording of §4.6 (and claim C1): "the deduplicator
keeps the first event" unconditionally, "then iterates subsequent events
keeping one whenever its timestamp is ≥5 seconds after the timestamp of the
last kept event". -/
def specDedupe : List Event → List Event
  | [] => []
  | e :: rest => e :: specGate e.timestamp rest

/-- `detectAnomalies(trades, market)` from `app.js`: sort, baseline pass,
empty-baseline early exit (`medianWallets` is computed in the source but
never used afterwards), classification pass, deduplication. -/
def detectAnomalies (trades : List Trade) (market : Market) : List Event :=
  let sorted := sortTrades trades
  if (qualifyingStats sorted).length = 0 then []
  else dedupeEvents (classificationEvents sorted market)

/-- The per-market body of `analyzeAllMarkets` (minus the fetch): markets
with fewer than 10 trades yield an empty event list. -/
def analyzeMarket (trades : List Trade) (market : Market) : List Event :=
  if trades.length < 10 then [] else detectAnomalies trades market

/-! ## Concrete inputs for counterexamples and witnesses -/

/-- A minimal market descriptor for the concrete examples. -/
def sampleMarket : Market := ⟨"q", "general", "c", "s", 0, 0⟩

/-- A three-trade tape whose classification pass flags exactly one
`imbalance` event, at timestamp 3 (below the deduplicator's initial
5-second gate). -/
def earlyTrades : List Trade :=
  [⟨0, "w1", "BUY", 300, 1/2⟩, ⟨1, "w2", "BUY", 300, 1/2⟩, ⟨3, "w3", "BUY", 300, 1/2⟩]

/-- The same tape shifted to timestamps 10, 11, 13, so the single flagged
event (timestamp 13) survives deduplication. -/
def lateTrades : List Trade :=
  [⟨10, "w1", "BUY", 300, 1/2⟩, ⟨11, "w2", "BUY", 300, 1/2⟩, ⟨13, "w3", "BUY", 300, 1/2⟩]

/-- The single event `detectAnomalies` emits on `lateTrades`. -/
def lateEvent : Event :=
  ⟨13, "q", "general", "c", "s", ["imbalance"], 3, 450, 450, 1, 150, 0, true, 3, 18, none⟩

/-- An event with the given timestamp (only the timestamp matters to the
deduplicator). -/
def stubEvent (ts : Int) : Event := ⟨ts, "", "", "", "", [], 0, 0, 0, 0, 0, 0, false, 0, 0, none⟩

/-- Two-trade tape whose single subsequent trade has price 0. -/
def zeroPriceTrades : List Trade :=
  [⟨0, "w1", "BUY", 10, 1/2⟩, ⟨10, "w2", "SELL", 10, 0⟩]

/-- Two-trade tape whose single subsequent trade has a nonzero price. -/
def upTrades : List Trade :=
  [⟨0, "w1", "BUY", 10, 1/2⟩, ⟨10, "w2", "SELL", 10, 3/4⟩]

/-- Scenario B window: 5 BUY trades of notional 100 each (totalVolume 500). -/
def scenarioBWindow : List Trade :=
  [⟨0, "w1", "BUY", 200, 1/2⟩, ⟨60, "w2", "BUY", 200, 1/2⟩, ⟨120, "w3", "BUY", 200, 1/2⟩,
   ⟨180, "w4", "BUY", 200, 1/2⟩, ⟨240, "w5", "BUY", 200, 1/2⟩]

/-- Scenario B thin window: the same skew with notional 16 each
(totalVolume 80, below the 100 floor). -/
def scenarioBThin : List Trade :=
  [⟨0, "w1", "BUY", 32, 1/2⟩, ⟨60, "w2", "BUY", 32, 1/2⟩, ⟨120, "w3", "BUY", 32, 1/2⟩,
   ⟨180, "w4", "BUY", 32, 1/2⟩, ⟨240, "w5", "BUY", 32, 1/2⟩]

/-! ## Scorer lemmas -/

/-- The sequential accumulation in `calculateAnomalyScore` equals the sum of
the independent spec components of §4.4, rounded and clamped. -/
theorem calculateAnomalyScore_eq (p : ScoreParams) :
    calculateAnomalyScore p =
      min 100 (jsRound (kindBaseSum p.anomalies + multiKindBonus p.anomalies +
        volumeRatioBonus p.volumeRatio + tradeSizeRatioBonus p.tradeSizeRatio +
        priceRangeBonus p.priceRangePct + imbalanceBonus p.imbalanceRatio +
        liquidityBonus p.marketLiquidity)) := rfl

theorem five_le_typeWeight (s : String) : 5 ≤ typeWeight s := by
  unfold typeWeight; split_ifs <;> norm_num

theorem kindBaseSum_nonneg (kinds : List String) : 0 ≤ kindBaseSum kinds := by
  unfold kindBaseSum
  refine List.sum_nonneg ?_
  intro x hx
  obtain ⟨s, _, rfl⟩ := List.mem_map.mp hx
  exact le_trans (by norm_num) (five_le_typeWeight s)

theorem five_le_kindBaseSum {kinds : List String} (h : kinds ≠ []) :
    5 ≤ kindBaseSum kinds := by
  cases kinds with
  | nil => exact absurd rfl h
  | cons a rest =>
    have h1 := five_le_typeWeight a
    have h2 := kindBaseSum_nonneg rest
    unfold kindBaseSum at h2 ⊢
    simp only [List.map_cons, List.sum_cons]
    linarith

theorem multiKindBonus_nonneg (kinds : List String) : 0 ≤ multiKindBonus kinds := by
  unfold multiKindBonus; split_ifs <;> norm_num

theorem volumeRatioBonus_nonneg (r : ℚ) : 0 ≤ volumeRatioBonus r := by
  unfold volumeRatioBonus; split_ifs <;> norm_num

theorem tradeSizeRatioBonus_nonneg (r : ℚ) : 0 ≤ tradeSizeRatioBonus r := by
  unfold tradeSizeRatioBonus; split_ifs <;> norm_num

theorem priceRangeBonus_nonneg (r : ℚ) : 0 ≤ priceRangeBonus r := by
  unfold priceRangeBonus; split_ifs <;> norm_num

theorem imbalanceBonus_nonneg (r : ℚ) : 0 ≤ imbalanceBonus r := by
  unfold imbalanceBonus; split_ifs <;> norm_num

theorem liquidityBonus_nonneg (r : ℚ) : 0 ≤ liquidityBonus r := by
  unfold liquidityBonus; split_ifs <;> norm_num

theorem volumeRatioBonus_mono {a b : ℚ} (h : a ≤ b) :
    volumeRatioBonus a ≤ volumeRatioBonus b := by
  unfold volumeRatioBonus; split_ifs <;> linarith

theorem tradeSizeRatioBonus_mono {a b : ℚ} (h : a ≤ b) :
    tradeSizeRatioBonus a ≤ tradeSizeRatioBonus b := by
  unfold tradeSizeRatioBonus; split_ifs <;> linarith

theorem priceRangeBonus_mono {a b : ℚ} (h : a ≤ b) :
    priceRangeBonus a ≤ priceRangeBonus b := by
  unfold priceRangeBonus; split_ifs <;> linarith

theorem imbalanceBonus_mono {a b : ℚ} (h : a ≤ b) :
    imbalanceBonus a ≤ imbalanceBonus b := by
  unfold imbalanceBonus; split_ifs <;> linarith

theorem liquidityBonus_mono {a b : ℚ} (h : a ≤ b) :
    liquidityBonus a ≤ liquidityBonus b := by
  unfold liquidityBonus; split_ifs <;> linarith

theorem jsRound_mono {a b : ℚ} (h : a ≤ b) : jsRound a ≤ jsRound b :=
  Int.floor_le_floor (by linarith)

theorem le_jsRound_of_le {z : ℤ} {q : ℚ} (h : (z : ℚ) ≤ q) : z ≤ jsRound q :=
  Int.le_floor.mpr (by linarith)

theorem calculateAnomalyScore_le_100 (p : ScoreParams) :
    calculateAnomalyScore p ≤ 100 := by
  rw [calculateAnomalyScore_eq]; exact min_le_left _ _

theorem calculateAnomalyScore_nonneg (p : ScoreParams) :
    0 ≤ calculateAnomalyScore p := by
  rw [calculateAnomalyScore_eq]
  refine le_min (by norm_num) (le_jsRound_of_le ?_)
  have h1 := kindBaseSum_nonneg p.anomalies
  have h2 := multiKindBonus_nonneg p.anomalies
  have h3 := volumeRatioBonus_nonneg p.volumeRatio
  have h4 := tradeSizeRatioBonus_nonneg p.tradeSizeRatio
  have h5 := priceRangeBonus_nonneg p.priceRangePct
  have h6 := imbalanceBonus_nonneg p.imbalanceRatio
  have h7 := liquidityBonus_nonneg p.marketLiquidity
  push_cast
  linarith

theorem five_le_calculateAnomalyScore {p : ScoreParams} (h : p.anomalies ≠ []) :
    5 ≤ calculateAnomalyScore p := by
  rw [calculateAnomalyScore_eq]
  refine le_min (by norm_num) (le_jsRound_of_le ?_)
  have h1 := five_le_kindBaseSum h
  have h2 := multiKindBonus_nonneg p.anomalies
  have h3 := volumeRatioBonus_nonneg p.volumeRatio
  have h4 := tradeSizeRatioBonus_nonneg p.tradeSizeRatio
  have h5 := priceRangeBonus_nonneg p.priceRangePct
  have h6 := imbalanceBonus_nonneg p.imbalanceRatio
  have h7 := liquidityBonus_nonneg p.marketLiquidity
  push_cast
  linarith

/-- C4: for every scorer input, the returned score is
`min(100, round(sum of the applicable components))` with one tier per bonus
category; the score lies in `[0, 100]` (it is an `Int` by construction); and
it is monotonically non-decreasing in each individual bonus input holding
the others fixed. -/
theorem C4_scorer_spec (p : ScoreParams) :
    (calculateAnomalyScore p =
      min 100 (jsRound (kindBaseSum p.anomalies + multiKindBonus p.anomalies +
        volumeRatioBonus p.volumeRatio + tradeSizeRatioBonus p.tradeSizeRatio +
        priceRangeBonus p.priceRangePct + imbalanceBonus p.imbalanceRatio +
        liquidityBonus p.marketLiquidity))) ∧
    0 ≤ calculateAnomalyScore p ∧ calculateAnomalyScore p ≤ 100 ∧
    (∀ r, p.volumeRatio ≤ r →
      calculateAnomalyScore p ≤ calculateAnomalyScore { p with volumeRatio := r }) ∧
    (∀ r, p.tradeSizeRatio ≤ r →
      calculateAnomalyScore p ≤ calculateAnomalyScore { p with tradeSizeRatio := r }) ∧
    (∀ r, p.priceRangePct ≤ r →
      calculateAnomalyScore p ≤ calculateAnomalyScore { p with priceRangePct := r }) ∧
    (∀ r, p.imbalanceRatio ≤ r →
      calculateAnomalyScore p ≤ calculateAnomalyScore { p with imbalanceRatio := r }) ∧
    (∀ r, p.marketLiquidity ≤ r →
      calculateAnomalyScore p ≤ calculateAnomalyScore { p with marketLiquidity := r }) := by
  refine ⟨calculateAnomalyScore_eq p, calculateAnomalyScore_nonneg p,
    calculateAnomalyScore_le_100 p, ?_, ?_, ?_, ?_, ?_⟩ <;>
    intro r h <;>
    rw [calculateAnomalyScore_eq, calculateAnomalyScore_eq] <;>
    dsimp only <;>
    refine min_le_min le_rfl (jsRound_mono ?_)
  · have := volumeRatioBonus_mono h; linarith
  · have := tradeSizeRatioBonus_mono h; linarith
  · have := priceRangeBonus_mono h; linarith
  · have := imbalanceBonus_mono h; linarith
  · have := liquidityBonus_mono h; linarith

/-- Witness for C4 at a concrete input. -/
theorem C4_scorer_spec_witness :
    calculateAnomalyScore ⟨["imbalance"], 1, 1, 0, 3, 1, 0, 0⟩ ≤
      calculateAnomalyScore ⟨["imbalance"], 21, 1, 0, 3, 1, 0, 0⟩ :=
  (C4_scorer_spec ⟨["imbalance"], 1, 1, 0, 3, 1, 0, 0⟩).2.2.2.1 21 (by norm_num)

unseal Rat.add Rat.mul Rat.inv Rat.sub Rat.ofScientific in
/-- C6: the scorer on exactly one matched kind `price_move`,
`volumeRatio = 0`, `tradeSizeRatio = 0`, `priceRangePct = 25`,
`imbalanceRatio = 0` and market liquidity 12000 returns exactly 25. -/
theorem C6_scenarioC_score :
    calculateAnomalyScore ⟨["price_move"], 0, 0, 25, 0, 0, 12000, 0⟩ = 25 := by decide

/-! ## Deduplicator lemmas -/

theorem dedupeAux_eq_specGate : ∀ (l : List Event) (a : Int), dedupeAux a l = specGate a l := by
  intro l
  induction l with
  | nil => intro a; rfl
  | cons e rest ih =>
    intro a
    simp only [dedupeAux, specGate]
    by_cases h : a + 5 ≤ e.timestamp
    · rw [if_pos (by omega : (5:Int) ≤ e.timestamp - a), if_pos h, ih]
    · rw [if_neg (by omega : ¬ (5:Int) ≤ e.timestamp - a), if_neg h, ih]

theorem mem_of_mem_dedupeAux : ∀ {l : List Event} {a : Int} {e : Event},
    e ∈ dedupeAux a l → e ∈ l := by
  intro l
  induction l with
  | nil => intro a e h; simp [dedupeAux] at h
  | cons f rest ih =>
    intro a e h
    simp only [dedupeAux] at h
    by_cases hc : 5 ≤ f.timestamp - a
    · rw [if_pos hc] at h
      rcases List.mem_cons.mp h with h1 | h2
      · simp [h1]
      · exact List.mem_cons_of_mem f (ih h2)
    · rw [if_neg hc] at h
      exact List.mem_cons_of_mem f (ih h)

theorem timestamp_bound_of_mem_dedupeAux : ∀ {l : List Event} {a : Int} {e : Event},
    e ∈ dedupeAux a l → a + 5 ≤ e.timestamp := by
  intro l
  induction l with
  | nil => intro a e h; simp [dedupeAux] at h
  | cons f rest ih =>
    intro a e h
    simp only [dedupeAux] at h
    by_cases hc : 5 ≤ f.timestamp - a
    · rw [if_pos hc] at h
      rcases List.mem_cons.mp h with h1 | h2
      · rw [h1]; omega
      · have := ih h2; omega
    · rw [if_neg hc] at h
      exact ih h

theorem pairwise_dedupeAux : ∀ (l : List Event) (a : Int),
    List.Pairwise (fun x y => x.timestamp + 5 ≤ y.timestamp) (dedupeAux a l) := by
  intro l
  induction l with
  | nil => intro a; simp [dedupeAux]
  | cons f rest ih =>
    intro a
    simp only [dedupeAux]
    by_cases hc : 5 ≤ f.timestamp - a
    · rw [if_pos hc]
      refine List.pairwise_cons.mpr ⟨?_, ih f.timestamp⟩
      intro b hb
      exact timestamp_bound_of_mem_dedupeAux hb
    · rw [if_neg hc]
      exact ih a

theorem dedupeAux_idempotent : ∀ (l : List Event) (a : Int),
    dedupeAux a (dedupeAux a l) = dedupeAux a l := by
  intro l
  induction l with
  | nil => intro a; rfl
  | cons f rest ih =>
    intro a
    by_cases hc : 5 ≤ f.timestamp - a
    · simp only [dedupeAux, if_pos hc]
      rw [ih f.timestamp]
    · simp only [dedupeAux, if_neg hc]
      exact ih a

/-- C8: the deduplicator is idempotent, and in any deduplicator output the
kept events are pairwise at least 5 seconds apart (in particular no two
kept events are less than 5 seconds apart). -/
theorem C8_dedupe_idempotent (events : List Event) :
    dedupeEvents (dedupeEvents events) = dedupeEvents events ∧
    List.Pairwise (fun a b => a.timestamp + 5 ≤ b.timestamp) (dedupeEvents events) :=
  ⟨dedupeAux_idempotent events 0, pairwise_dedupeAux events 0⟩

unseal Rat.add Rat.mul Rat.inv Rat.sub Rat.ofScientific List.mergeSort List.merge in
/-- C1 counterexample: on `earlyTrades` the classification pass produces
exactly one event, at timestamp 3, but the source deduplicator (whose
last-kept gate is seeded with 0) drops it — the first event is NOT kept —
while the spec-worded deduplicator keeps it. -/
theorem C1_dedupe_counterexample :
    (classificationEvents (sortTrades earlyTrades) sampleMarket).map Event.timestamp = [3] ∧
    detectAnomalies earlyTrades sampleMarket = [] ∧
    (specDedupe (classificationEvents (sortTrades earlyTrades) sampleMarket)).map
      Event.timestamp = [3] := by decide

/-- C1 amended: provided the first event's timestamp is at least 5 (the
source seeds the gate with `lastTs = 0`, so an event with timestamp below
5 is dropped even at the head), the deduplicator keeps the first event and
thereafter keeps exactly the events whose timestamp is at least 5 seconds
after the last kept event's timestamp; of two events 3 seconds apart only
the earlier survives. -/
theorem C1_dedupe_gate (e : Event) (rest : List Event) (h5 : 5 ≤ e.timestamp) :
    dedupeEvents (e :: rest) = specDedupe (e :: rest) ∧
    (∀ e2 : Event, e2.timestamp = e.timestamp + 3 → dedupeEvents [e, e2] = [e]) := by
  constructor
  · show dedupeAux 0 (e :: rest) = specDedupe (e :: rest)
    simp only [dedupeAux, specDedupe, if_pos (by omega : (5:Int) ≤ e.timestamp - 0)]
    rw [dedupeAux_eq_specGate]
  · intro e2 h3
    show dedupeAux 0 [e, e2] = [e]
    simp only [dedupeAux, if_pos (by omega : (5:Int) ≤ e.timestamp - 0),
      if_neg (by omega : ¬ (5:Int) ≤ e2.timestamp - e.timestamp)]

/-- Witness for C1 at concrete events with timestamps 10 and 13. -/
theorem C1_dedupe_gate_witness :
    dedupeEvents [stubEvent 10, stubEvent 13] = specDedupe [stubEvent 10, stubEvent 13] ∧
    dedupeEvents [stubEvent 10, stubEvent 13] = [stubEvent 10] :=
  ⟨(C1_dedupe_gate (stubEvent 10) [stubEvent 13] (by decide)).1,
   (C1_dedupe_gate (stubEvent 10) [stubEvent 13] (by decide)).2 (stubEvent 13) (by decide)⟩

/-! ## Classifier lemmas -/

theorem mem_if_singleton {c : Prop} [Decidable c] (a b : String) :
    (a ∈ (if c then [b] else ([] : List String))) ↔ (c ∧ a = b) := by
  split_ifs with h <;> simp_all

unseal Rat.add Rat.mul Rat.inv Rat.sub Rat.ofScientific in
/-- C3: at any trade index, `imbalance` is flagged iff the window's total
volume exceeds 100 and the one-sidedness ratio exceeds 0.85; in scenario B
a 5-trade all-BUY window of notional 100 each fires it, while the same skew
with total volume 80 does not. -/
theorem C3_imbalance_iff :
    (∀ (medianVolume medianTradeSize totalVol netVol currentSize avgPrice priceRange : ℚ)
       (tradeFreq : Nat),
       ("imbalance" ∈ anomaliesFor medianVolume medianTradeSize totalVol netVol currentSize
          avgPrice priceRange tradeFreq) ↔
         (100 < totalVol ∧ 85/100 < |netVol| / totalVol)) ∧
    ("imbalance" ∈ anomaliesFor 0 0 (totalVolOf scenarioBWindow) (netVolOf scenarioBWindow)
      0 (1/2) 0 5) ∧
    ("imbalance" ∉ anomaliesFor 0 0 (totalVolOf scenarioBThin) (netVolOf scenarioBThin)
      0 (1/2) 0 5) := by
  refine ⟨?_, by decide, by decide⟩
  intro mv mt tv nv cs ap pr tf
  simp [anomaliesFor, mem_if_singleton]

/-! ## Median lemmas -/

theorem mergeSort_eq_of_sorted_perm {l s : List ℚ} (hp : s.Perm l) (hs : s.Sorted (· ≤ ·)) :
    l.mergeSort = s :=
  List.eq_of_perm_of_sorted ((List.mergeSort_perm l _).trans hp.symm)
    (List.sorted_mergeSort' l) hs

theorem median_perm {l l' : List ℚ} (h : l.Perm l') : median l = median l' := by
  have hlen : l.length = l'.length := h.length_eq
  have hsort : l.mergeSort = l'.mergeSort :=
    List.eq_of_perm_of_sorted
      ((List.mergeSort_perm l _).trans (h.trans (List.mergeSort_perm l' _).symm))
      (List.sorted_mergeSort' l) (List.sorted_mergeSort' l')
  simp only [median, hlen, hsort]

/-- C5: the median of an empty sequence is 0; for any ascending rearrangement
`s` of the input, the median is the middle element of `s` (odd length) or the
mean of the two central elements of `s` (even length); and the median is
invariant under permutation of the input. -/
theorem C5_median_spec :
    median ([] : List ℚ) = 0 ∧
    (∀ (l s : List ℚ), s.Perm l → s.Sorted (· ≤ ·) →
      (l.length % 2 = 1 → median l = s.getD (l.length / 2) 0) ∧
      (l ≠ [] → l.length % 2 = 0 →
        median l = (s.getD (l.length / 2 - 1) 0 + s.getD (l.length / 2) 0) / 2)) ∧
    (∀ l l' : List ℚ, l.Perm l' → median l = median l') := by
  refine ⟨rfl, ?_, fun l l' h => median_perm h⟩
  intro l s hp hs
  have hsort : l.mergeSort = s := mergeSort_eq_of_sorted_perm hp hs
  constructor
  · intro hodd
    have hne : ¬ l.length = 0 := by omega
    simp only [median, if_neg hne, hsort, if_pos hodd]
  · intro hne hev
    have hne0 : ¬ l.length = 0 := fun h0 => hne (List.length_eq_zero.mp h0)
    have hnodd : ¬ l.length % 2 = 1 := by omega
    simp only [median, if_neg hne0, hsort, if_neg hnodd]

unseal Rat.add Rat.mul Rat.inv Rat.sub Rat.ofScientific List.mergeSort List.merge in
/-- Witness for C5 on the concrete sequences `[3, 1, 2]` and `[4, 1, 3, 2]`. -/
theorem C5_median_spec_witness :
    median [3, 1, 2] = 2 ∧ median [4, 1, 3, 2] = 5/2 := by
  constructor
  · have h1 := (C5_median_spec.2.1 [3, 1, 2] [1, 2, 3] (by decide) (by decide)).1 (by decide)
    exact h1.trans (by decide)
  · have h2 := (C5_median_spec.2.1 [4, 1, 3, 2] [1, 2, 3, 4] (by decide) (by decide)).2
      (by decide) (by decide)
    exact h2.trans (by decide)

/-! ## Orchestrator and early-exit lemmas -/

/-- C7: a market with fewer than 10 trades, or one whose trade set yields no
qualifying window snapshot, produces an empty event list (the functions are
total: no error state exists). -/
theorem C7_insufficient_data :
    (∀ (trades : List Trade) (market : Market), trades.length < 10 →
      analyzeMarket trades market = []) ∧
    (∀ (trades : List Trade) (market : Market),
      qualifyingStats (sortTrades trades) = [] → detectAnomalies trades market = []) := by
  constructor
  · intro trades market h
    unfold analyzeMarket
    rw [if_pos h]
  · intro trades market h
    simp [detectAnomalies, h]

unseal Rat.add Rat.mul Rat.inv Rat.sub Rat.ofScientific List.mergeSort List.merge in
/-- Witness for C7: a 3-trade tape (fewer than 10 trades) and a 1-trade tape
(no qualifying window). -/
theorem C7_insufficient_data_witness :
    analyzeMarket earlyTrades sampleMarket = [] ∧
    detectAnomalies [⟨0, "w1", "BUY", 1, 1⟩] sampleMarket = [] :=
  ⟨C7_insufficient_data.1 earlyTrades sampleMarket (by decide),
   C7_insufficient_data.2 [⟨0, "w1", "BUY", 1, 1⟩] sampleMarket (by decide)⟩

/-! ## Forward-price validator lemmas -/

theorem calculatePriceChange_cases (trades : List Trade) (i : Nat) (t : Trade)
    (ht : trades.get? i = some t) :
    (t.price = 0 → calculatePriceChange trades i t.timestamp = none) ∧
    (futureTradesOf trades i t.timestamp = [] →
      calculatePriceChange trades i t.timestamp = none) ∧
    (∀ lt, t.price ≠ 0 → (futureTradesOf trades i t.timestamp).getLast? = some lt →
      calculatePriceChange trades i t.timestamp = some
        { change := ((if lt.price = 0 then t.price else lt.price) - t.price) / t.price * 100
          direction :=
            if 0 < ((if lt.price = 0 then t.price else lt.price) - t.price) / t.price * 100
            then "up"
            else if ((if lt.price = 0 then t.price else lt.price) - t.price) / t.price * 100 < 0
            then "down" else "flat"
          futurePrice := if lt.price = 0 then t.price else lt.price
          eventPrice := t.price
          tradeCount := (futureTradesOf trades i t.timestamp).length }) := by
  have hge : trades[i]? = some t := by rw [← List.get?_eq_getElem?]; exact ht
  refine ⟨?_, ?_, ?_⟩
  · intro h0
    simp [calculatePriceChange, hge, h0]
  · intro hf
    by_cases h0 : t.price = 0
    · simp [calculatePriceChange, hge, h0]
    · simp [calculatePriceChange, hge, h0, hf]
  · intro lt hp hlast
    have hne : futureTradesOf trades i t.timestamp ≠ [] := by
      intro hnil
      rw [hnil] at hlast
      simp at hlast
    have hlen : ¬ (futureTradesOf trades i t.timestamp).length = 0 := by
      simpa [List.length_eq_zero] using hne
    have hld : (futureTradesOf trades i t.timestamp).getLastD default = lt := by
      rw [List.getLastD_eq_getLast?, hlast]; rfl
    simp only [calculatePriceChange, List.getD_eq_getElem?_getD, hge, Option.getD_some,
      if_neg hp, if_neg hlen, hld]

unseal Rat.add Rat.mul Rat.inv Rat.sub Rat.ofScientific in
/-- C2 counterexample: when the chronologically last subsequent trade has
price 0, the source substitutes the event price for `L` (change 0, "flat"),
whereas the claim's formula `change = (L - P) / P × 100` would give -100,
"down" (as the spec-worded `specPriceChange` does). -/
theorem C2_priceChange_counterexample :
    calculatePriceChange zeroPriceTrades 0 0 = some ⟨0, "flat", 1/2, 1/2, 1⟩ ∧
    specPriceChange zeroPriceTrades 0 0 = some ⟨-100, "down", 0, 1/2, 1⟩ := by decide

/-- C2 amended: for a flagged trade `t` at index `i`, the record is absent
when `t.price = 0` or when no subsequent trade lies within 300 seconds;
otherwise it reports `change = (L' - P) / P × 100` where `P = t.price` and
`L'` is the price of the chronologically last subsequent trade when that
price is nonzero, and `P` itself when that price is 0 (or missing) — with
the matching direction, `P`, `L'`, and the count of subsequent trades
used. -/
theorem C2_priceChange_spec (trades : List Trade) (i : Nat) (t : Trade)
    (ht : trades.get? i = some t) :
    (t.price = 0 → calculatePriceChange trades i t.timestamp = none) ∧
    (futureTradesOf trades i t.timestamp = [] →
      calculatePriceChange trades i t.timestamp = none) ∧
    (∀ lt, t.price ≠ 0 → (futureTradesOf trades i t.timestamp).getLast? = some lt →
      calculatePriceChange trades i t.timestamp = some
        { change := ((if lt.price = 0 then t.price else lt.price) - t.price) / t.price * 100
          direction :=
            if 0 < ((if lt.price = 0 then t.price else lt.price) - t.price) / t.price * 100
            then "up"
            else if ((if lt.price = 0 then t.price else lt.price) - t.price) / t.price * 100 < 0
            then "down" else "flat"
          futurePrice := if lt.price = 0 then t.price else lt.price
          eventPrice := t.price
          tradeCount := (futureTradesOf trades i t.timestamp).length }) :=
  calculatePriceChange_cases trades i t ht

unseal Rat.add Rat.mul Rat.inv Rat.sub Rat.ofScientific in
/-- Witness for C2 on a concrete tape whose last subsequent trade has price
3/4: change is `(3/4 - 1/2) / (1/2) × 100 = 50`, direction "up". -/
theorem C2_priceChange_spec_witness :
    calculatePriceChange upTrades 0 0 = some ⟨50, "up", 3/4, 1/2, 1⟩ :=
  ((C2_priceChange_spec upTrades 0 ⟨0, "w1", "BUY", 10, 1/2⟩ rfl).2.2
    ⟨10, "w2", "SELL", 10, 3/4⟩ (by norm_num) (by decide)).trans (by decide)

/-- C9: if the flagged trade has nonzero price `P` and the chronologically
last subsequent trade within 300 seconds has price 0 (or a missing price
field), `calculatePriceChange` substitutes `P` for the future price: the
record has `futurePrice = P`, `change = 0`, `direction = "flat"`. -/
theorem C9_zero_future_price (trades : List Trade) (i : Nat) (t lt : Trade)
    (ht : trades.get? i = some t) (hp : t.price ≠ 0)
    (hlast : (futureTradesOf trades i t.timestamp).getLast? = some lt)
    (hz : lt.price = 0) :
    calculatePriceChange trades i t.timestamp = some
      { change := 0, direction := "flat", futurePrice := t.price, eventPrice := t.price,
        tradeCount := (futureTradesOf trades i t.timestamp).length } := by
  have h := (calculatePriceChange_cases trades i t ht).2.2 lt hp hlast
  rw [h]
  simp [hz]

unseal Rat.add Rat.mul Rat.inv Rat.sub Rat.ofScientific in
/-- Witness for C9 on the concrete tape whose subsequent trade has price 0. -/
theorem C9_zero_future_price_witness :
    calculatePriceChange zeroPriceTrades 0 0 = some ⟨0, "flat", 1/2, 1/2, 1⟩ :=
  (C9_zero_future_price zeroPriceTrades 0 ⟨0, "w1", "BUY", 10, 1/2⟩
    ⟨10, "w2", "SELL", 10, 0⟩ rfl (by norm_num) (by decide) rfl).trans (by decide)

/-! ## Event invariants -/

theorem eventAtIndex_some {sorted : List Trade} {mv mt : ℚ} {market : Market} {i : Nat}
    {e : Event} (h : eventAtIndex sorted mv mt market i = some e) :
    e.anomalies ≠ [] ∧
    ∃ p : ScoreParams, p.anomalies = e.anomalies ∧ e.score = calculateAnomalyScore p := by
  unfold eventAtIndex at h
  split at h
  · simp at h
  · simp only [Option.ite_none_left_eq_some, Option.ite_none_right_eq_some,
      Option.some.injEq] at h
    obtain ⟨h3, hA, hrec⟩ := h
    subst hrec
    exact ⟨List.length_pos.mp hA, ⟨_, rfl, rfl⟩⟩

/-- C10: every event emitted by `detectAnomalies` carries a non-empty
anomaly-kind list, and its score is at least 5 (every kind weight is at
least 5 — the unknown-kind default included — and every other scoring
component is non-negative). -/
theorem C10_event_invariants (trades : List Trade) (market : Market) (e : Event)
    (h : e ∈ detectAnomalies trades market) :
    e.anomalies ≠ [] ∧ 5 ≤ e.score := by
  simp only [detectAnomalies] at h
  split at h
  · simp at h
  · have h1 : e ∈ classificationEvents (sortTrades trades) market := mem_of_mem_dedupeAux h
    simp only [classificationEvents, List.mem_filterMap] at h1
    obtain ⟨i, -, hev⟩ := h1
    obtain ⟨hne, p, hpa, hsc⟩ := eventAtIndex_some hev
    refine ⟨hne, ?_⟩
    rw [hsc]
    exact five_le_calculateAnomalyScore (by rw [hpa]; exact hne)

unseal Rat.add Rat.mul Rat.inv Rat.sub Rat.ofScientific List.mergeSort List.merge in
/-- Witness for C10: the single event emitted on `lateTrades` has the
anomaly list `["imbalance"]` and score 18. -/
theorem C10_event_invariants_witness :
    lateEvent.anomalies ≠ [] ∧ 5 ≤ lateEvent.score :=
  C10_event_invariants lateTrades sampleMarket lateEvent (by decide)
